import Mathlib

/-!
Verification of the Solana-Trends frontend query surface and its
spec-described backend core.

The embedded code comes from:
* `src/frontend/src/api/client.js` (fetchTrends, fetchAcceleration, fetchCoins,
  fetchHistory, fetchBreakoutMetas, fetchTrendDetail, searchCoins);
* `src/frontend/src/hooks/useTrends.js` (useTopAccelerating);
* `src/frontend/src/components/AccelerationBar.jsx` (normalizedScore);
* `src/frontend/src/components/TrendDetail.jsx` (averageMarketCap / breakoutCoin);
* the mock data of `src/frontend/src/mock/data.js`.

JavaScript numbers are embedded as `Rat`; `Array.prototype.sort` (stable since
ES2019) with a consistent comparator is embedded as `List.mergeSort`, which is
also a stable sort, so both produce the same output list.  Backend components
that are described by the specification but whose sources are not available
(the aggregation pipeline, the acceleration engine, the categorizer and the
breakout-cluster detector) are modelled from the specification; each such
definition says so in its doc comment.
-/

namespace SolanaTrends

/-- Trend row as served by the trends API and as present in the mock data
(`src/frontend/src/mock/data.js`); only the fields the client code reads. -/
structure Trend where
  category : String
  sub_category : String
  coin_count : Rat
  total_market_cap : Rat
  acceleration_score : Rat
  trend_direction : String
  velocity : Rat
deriving DecidableEq

/-- The `sort_by` values understood by the fetchTrends fallback comparator;
`other` stands for any other string, for which the comparator returns 0. -/
inductive SortBy
  | acceleration
  | market_cap
  | coin_count
  | other
deriving DecidableEq

/-- The inline comparator of the fetchTrends fallback
(`src/frontend/src/api/client.js` lines 24-29 and 139-144):
`b.<key> - a.<key>` for the three known sort keys, `0` otherwise. -/
def trendCmp (s : SortBy) (a b : Trend) : Rat :=
  match s with
  | .acceleration => b.acceleration_score - a.acceleration_score
  | .market_cap => b.total_market_cap - a.total_market_cap
  | .coin_count => b.coin_count - a.coin_count
  | .other => 0

/-- The metric a given `sort_by` value orders by (0 for unrecognized values). -/
def sortKey (s : SortBy) (t : Trend) : Rat :=
  match s with
  | .acceleration => t.acceleration_score
  | .market_cap => t.total_market_cap
  | .coin_count => t.coin_count
  | .other => 0

/-- `[...mockTrends].sort((a, b) => cmp)` — a stable sort driven by the inline
comparator, embedded as the stable `List.mergeSort` with
`le a b := cmp a b ≤ 0`. -/
def sortTrends (s : SortBy) (ts : List Trend) : List Trend :=
  ts.mergeSort (fun a b => decide (trendCmp s a b ≤ 0))

/-- mockTrends (`src/frontend/src/mock/data.js`), restricted to the embedded
fields. -/
def mockTrends : List Trend :=
  [ ⟨"animals", "penguins", 47, 285000000, 92, "up", 8.5⟩,
    ⟨"animals", "dogs", 156, 1250000000, 78, "up", 5.2⟩,
    ⟨"animals", "cats", 89, 520000000, 65, "stable", 2.1⟩,
    ⟨"animals", "frogs", 34, 180000000, 85, "up", 6.8⟩,
    ⟨"tech", "ai", 78, 890000000, 88, "up", 7.4⟩,
    ⟨"tech", "agents", 23, 340000000, 95, "up", 12.3⟩,
    ⟨"memes", "wojak", 15, 45000000, 42, "down", -2.3⟩,
    ⟨"culture", "trump", 67, 2100000000, 72, "stable", 1.5⟩,
    ⟨"animals", "hippos", 12, 95000000, 68, "up", 4.2⟩,
    ⟨"tech", "depin", 19, 230000000, 55, "stable", 1.8⟩,
    ⟨"animals", "goats", 8, 125000000, 82, "up", 5.9⟩,
    ⟨"food", "peanuts", 5, 35000000, 38, "down", -3.1⟩ ]

/-- Modelled from the spec: the backend `get_trends` handler (the `/api/trends`
route) is not among the available sources; per §6 of the spec it returns an
"ordered list" of trend rows sorted by the requested `sort_by` metric,
descending.  We model it as the same descending stable sort of the backend's
trend rows. -/
def get_trends_spec (s : SortBy) (rows : List Trend) : List Trend :=
  sortTrends s rows

/-- fetchTrends (`src/frontend/src/api/client.js`): the `backend` argument is
the outcome of the collaborator query (`.ok rows` = backend trend rows behind a
successful HTTP response, `.error` = the fetch rejecting or `handleResponse`
throwing on a non-ok response).  The `try`/`catch` swallows every collaborator
error and resolves with the mock data sorted by the inline comparator, so the
function itself never produces an error. -/
def fetchTrends (s : SortBy) (backend : Except String (List Trend)) :
    Except String (List Trend) :=
  match backend with
  | .ok rows => .ok (get_trends_spec s rows)
  | .error _ => .ok (sortTrends s mockTrends)

/-! Generic facts about stable descending key sorts. -/

/-- Boolean "a may come before b" relation of a descending key sort. -/
def leKey {α : Type} (key : α → Rat) (a b : α) : Bool :=
  decide (key b - key a ≤ 0)

/-- useTopAccelerating (`src/frontend/src/hooks/useTrends.js` lines 81-91):
awaits `fetchTrends(timeWindow, 'acceleration')` and returns
`trends.slice(0, limit)`; a rejected fetchTrends promise would propagate. -/
def useTopAccelerating (limit : Nat) (backend : Except String (List Trend)) :
    Except String (List Trend) :=
  match fetchTrends SortBy.acceleration backend with
  | .ok trends => .ok (trends.take limit)
  | .error e => .error e

/-! C3: the tie-break of the "top accelerating" ordering.

The comparator of the sort the claim cites
(`src/frontend/src/api/client.js` lines 24-29 / 139-144) compares only
`acceleration_score`; when two entries tie it returns 0 and the stable sort
keeps their input order, so no `total_market_cap` or category-name tie-break
takes place. -/

/-- A trend with the smaller market cap, tied on acceleration_score. -/
def tSmall : Trend :=
  ⟨"zoo", "small", 1, 100, 50, "up", 1⟩

/-- A trend with the larger market cap, tied on acceleration_score. -/
def tBig : Trend :=
  ⟨"art", "big", 2, 200, 50, "up", 1⟩

/-! Models of the remaining client functions of `src/frontend/src/api/client.js`.
In each one the argument `api` is the outcome of the collaborator query:
`.ok` carries the parsed body of a successful response, `.error` stands for the
fetch rejecting or `handleResponse` throwing on a non-ok response. -/

/-- Acceleration row as produced by the fetchAcceleration fallback projection. -/
structure AccelEntry where
  category : String
  sub_category : String
  acceleration_score : Rat
  trend_direction : String
  velocity : Rat
deriving DecidableEq

/-- The projection `t => ({category, sub_category, acceleration_score,
trend_direction, velocity})` of the fetchAcceleration fallback. -/
def trendToAccelEntry (t : Trend) : AccelEntry :=
  ⟨t.category, t.sub_category, t.acceleration_score, t.trend_direction, t.velocity⟩

/-- fetchAcceleration: the catch swallows every collaborator error and resolves
with the projected mock trends. -/
def fetchAcceleration (api : Except String (List AccelEntry)) :
    Except String (List AccelEntry) :=
  match api with
  | .ok rows => .ok rows
  | .error _ => .ok (mockTrends.map trendToAccelEntry)

/-- Coin record (mock data shape); only the fields the embedded components
read. `market_cap` is optional because the components guard against missing
market caps. -/
structure Coin where
  symbol : String
  name : String
  category : String
  sub_category : String
  market_cap : Option Rat
deriving DecidableEq

/-- mockCoins (`src/frontend/src/mock/data.js`), restricted to the embedded
fields. -/
def mockCoins : List Coin :=
  [ ⟨"PENGU", "Penguin Token", "animals", "penguins", some 180000000⟩,
    ⟨"PENG", "Peng Coin", "animals", "penguins", some 45000000⟩,
    ⟨"WADDLE", "Waddle Finance", "animals", "penguins", some 25000000⟩,
    ⟨"BONK", "Bonk", "animals", "dogs", some 850000000⟩,
    ⟨"WIF", "dogwifhat", "animals", "dogs", some 320000000⟩,
    ⟨"POPCAT", "Popcat", "animals", "dogs", some 45000000⟩,
    ⟨"MEW", "cat in a dogs world", "animals", "cats", some 320000000⟩,
    ⟨"KITTY", "Kitty Coin", "animals", "cats", some 120000000⟩,
    ⟨"TURBO", "TurboAI", "tech", "ai", some 450000000⟩,
    ⟨"GOATAI", "Goatseus Maximus AI", "tech", "ai", some 280000000⟩,
    ⟨"AIXBT", "AI XBT", "tech", "agents", some 180000000⟩,
    ⟨"VIRTUAL", "Virtual Protocol", "tech", "agents", some 120000000⟩,
    ⟨"TRUMP", "Official Trump", "culture", "trump", some 1800000000⟩,
    ⟨"MAGA", "MAGA Token", "culture", "trump", some 150000000⟩ ]

/-- fetchCoins: the catch swallows every collaborator error and resolves with
`mockCoins.filter(c => c.category === category)`. -/
def fetchCoins (category : String) (api : Except String (List Coin)) :
    Except String (List Coin) :=
  match api with
  | .ok rows => .ok rows
  | .error _ => .ok (mockCoins.filter (fun c => c.category == category))

/-- History point (mock data shape), restricted to the embedded fields. -/
structure HistoryPoint where
  category : String
  sub_category : String
  market_cap : Rat
  coin_count : Rat
  acceleration_score : Rat
deriving DecidableEq

/-- mockHistory (`src/frontend/src/mock/data.js`), restricted to the embedded
fields, in file order. -/
def mockHistory : List HistoryPoint :=
  [ ⟨"animals", "penguins", 180000000, 35, 75⟩,
    ⟨"animals", "penguins", 200000000, 38, 78⟩,
    ⟨"animals", "penguins", 225000000, 40, 82⟩,
    ⟨"animals", "penguins", 245000000, 42, 85⟩,
    ⟨"animals", "penguins", 260000000, 44, 88⟩,
    ⟨"animals", "penguins", 275000000, 46, 90⟩,
    ⟨"animals", "penguins", 285000000, 47, 92⟩,
    ⟨"tech", "agents", 120000000, 12, 72⟩,
    ⟨"tech", "agents", 150000000, 14, 78⟩,
    ⟨"tech", "agents", 190000000, 16, 82⟩,
    ⟨"tech", "agents", 240000000, 18, 88⟩,
    ⟨"tech", "agents", 290000000, 20, 91⟩,
    ⟨"tech", "agents", 320000000, 22, 93⟩,
    ⟨"tech", "agents", 340000000, 23, 95⟩,
    ⟨"animals", "dogs", 1100000000, 145, 72⟩,
    ⟨"animals", "dogs", 1120000000, 148, 74⟩,
    ⟨"animals", "dogs", 1150000000, 150, 75⟩,
    ⟨"animals", "dogs", 1180000000, 152, 76⟩,
    ⟨"animals", "dogs", 1210000000, 154, 77⟩,
    ⟨"animals", "dogs", 1230000000, 155, 78⟩,
    ⟨"animals", "dogs", 1250000000, 156, 78⟩ ]

/-- fetchHistory: the catch swallows every collaborator error and resolves with
`mockHistory.filter(h => h.category === category)`. -/
def fetchHistory (category : String) (api : Except String (List HistoryPoint)) :
    Except String (List HistoryPoint) :=
  match api with
  | .ok pts => .ok pts
  | .error _ => .ok (mockHistory.filter (fun h => h.category == category))

/-- Breakout meta record (mock data shape). -/
structure BreakoutMeta where
  cluster_id : String
  suggested_name : String
  coin_count : Rat
  common_terms : List String
  total_market_cap : Rat
  avg_acceleration : Rat
  sample_coins : List String
deriving DecidableEq

/-- mockBreakoutMetas (`src/frontend/src/mock/data.js`). -/
def mockBreakoutMetas : List BreakoutMeta :=
  [ ⟨"cluster_001", "Space Animals", 8, ["space", "moon", "rocket", "astro"],
      45000000, 78, ["SPACEPENG", "MOONDOG", "ROCKETCAT"]⟩,
    ⟨"cluster_002", "Gaming Memes", 12, ["game", "play", "level", "boss"],
      68000000, 72, ["GAMEMEME", "BOSSCAT", "LEVELUP"]⟩,
    ⟨"cluster_003", "Food Creatures", 6, ["food", "eat", "hungry", "yum"],
      25000000, 65, ["HUNGRYPEPE", "FOODOG", "YUMCAT"]⟩ ]

/-- fetchBreakoutMetas: the catch swallows every collaborator error and
resolves with `mockBreakoutMetas`. -/
def fetchBreakoutMetas (api : Except String (List BreakoutMeta)) :
    Except String (List BreakoutMeta) :=
  match api with
  | .ok ms => .ok ms
  | .error _ => .ok mockBreakoutMetas

/-- Shape of the searchCoins result; coins and meta lists are all the embedded
components read. -/
structure SearchResult where
  query : String
  coins : List Coin
  related_metas : List String
  suggestions : List String
deriving DecidableEq

/-- searchCoins: the catch swallows every collaborator error and resolves with
the empty result shape `{query, coins: [], related_metas: [], suggestions: []}`. -/
def searchCoins (query : String) (api : Except String SearchResult) :
    Except String SearchResult :=
  match api with
  | .ok r => .ok r
  | .error _ => .ok ⟨query, [], [], []⟩

/-- Value a fetchTrendDetail call resolves with, distinguishing the JavaScript
values `null` and `undefined`. -/
inductive TrendDetailResult
  | null
  | found (t : Trend)
  | jsUndefined
deriving DecidableEq

/-- JavaScript `Array.prototype.find`: the first element satisfying the
predicate, or `undefined`. -/
def jsFind (p : Trend → Bool) (l : List Trend) : TrendDetailResult :=
  match l.find? p with
  | some t => .found t
  | none => .jsUndefined

/-- JavaScript `trend || null` applied to the result of `find` (a trend object
is always truthy). -/
def orNull : TrendDetailResult → TrendDetailResult
  | .jsUndefined => .null
  | r => r

/-- The match predicate of fetchTrendDetail's API path:
`t.category === category && t.sub_category === subCategory`. -/
def detailMatch (category subCategory : String) (t : Trend) : Bool :=
  t.category == category && t.sub_category == subCategory

/-- The match predicate of fetchTrendDetail's mock fallback:
`t.category === category && (!subCategory || t.sub_category === subCategory)`
(`!subCategory` is true exactly for the empty string). -/
def detailMatchMock (category subCategory : String) (t : Trend) : Bool :=
  t.category == category && (subCategory == "" || t.sub_category == subCategory)

/-- fetchTrendDetail (`src/frontend/src/api/client.js` lines 214-232): fetches
all trends and returns `trends.find(...) || null`; the catch swallows every
collaborator error and searches `mockTrends` instead, so the call always
resolves with a value. -/
def fetchTrendDetail (category subCategory : String)
    (api : Except String (List Trend)) : TrendDetailResult :=
  match api with
  | .ok trends => orNull (jsFind (detailMatch category subCategory) trends)
  | .error _ => orNull (jsFind (detailMatchMock category subCategory) mockTrends)

/-- Trend aggregate row (spec §3): one rollup per
(category, sub_category, time_window) per aggregation run. -/
structure TrendAggregate where
  coin_count : Rat
  total_market_cap : Rat
  computed_at : Rat
deriving DecidableEq

/-- Modelled from the spec: the backend aggregation pipeline is not among the
available sources; per §5/§7 a failed aggregation run commits nothing, leaving
the previously computed aggregates in the store servable, while a successful
run appends its rows to the append-only history. -/
def runAggregation (store : List TrendAggregate)
    (run : Except String (List TrendAggregate)) : List TrendAggregate :=
  match run with
  | .ok rows => store ++ rows
  | .error _ => store

/-! C5: the acceleration engine's neutral baseline. -/

/-- Acceleration result (spec §3): score, direction and velocity for one
category key. -/
structure AccelerationResult where
  acceleration_score : Rat
  trend_direction : String
  velocity : Rat
deriving DecidableEq

/-- The noise threshold ε of spec §4.3 for direction classification. -/
def epsilon : Rat := 1 / 100

/-- Rate of change of total_market_cap between two aggregates, normalized by
elapsed time (0 when no time elapsed). -/
def velocityOf (p q : TrendAggregate) : Rat :=
  if q.computed_at = p.computed_at then 0
  else (q.total_market_cap - p.total_market_cap) / (q.computed_at - p.computed_at)

/-- Direction classification of spec §4.3: "up" above ε, "down" below −ε,
otherwise "stable". -/
def direction (v : Rat) : String :=
  if epsilon < v then "up" else if v < -epsilon then "down" else "stable"

/-- Modelled from the spec: the backend Acceleration Engine (`score`, §4.3) is
not among the available sources.  With fewer than 2 history points it returns
the documented neutral baseline (score 0, direction "stable") instead of an
error; with 2 points velocity is the time-normalized change of
total_market_cap between the two most recent points and acceleration defaults
to 0; with ≥3 points acceleration is the change of velocity between the two
most recent intervals, and the display score is that acceleration clamped into
[0, 100] (a monotone transform, as §4.3 permits).  The history is ordered
oldest-first, as produced by the aggregate store. -/
def score (history : List TrendAggregate) : AccelerationResult :=
  match history.reverse with
  | [] => ⟨0, "stable", 0⟩
  | [_] => ⟨0, "stable", 0⟩
  | [r0, r1] =>
    let v := velocityOf r1 r0
    ⟨0, direction v, v⟩
  | r0 :: r1 :: r2 :: _ =>
    let v := velocityOf r1 r0
    let vPrev := velocityOf r2 r1
    let accel :=
      if r0.computed_at = r1.computed_at then 0
      else (v - vPrev) / (r0.computed_at - r1.computed_at)
    ⟨min 100 (max 0 accel), direction v, v⟩

/-! C6: the breakout cluster detector. -/

/-- Feature vector of a candidate token (spec §4.4: bag-of-terms frequencies
over the normalized name/symbol text, possibly extended with scaled numeric
features). -/
abbrev FeatVec := List Rat

/-- L1 distance between two feature vectors of equal dimension. -/
def dist (v w : FeatVec) : Rat :=
  (List.zipWith (fun a b => |a - b|) v w).sum

/-- Whether point `p` is within the neighborhood radius of some member of a
cluster-in-progress. -/
def closeToCluster (eps : Rat) (p : FeatVec) (c : List FeatVec) : Bool :=
  c.any (fun q => decide (dist p q ≤ eps))

/-- One step of the density grouping: a new point joins (and merges) every
group containing a point within the neighborhood radius, or starts its own
group. -/
def addPoint (eps : Rat) (comps : List (List FeatVec)) (p : FeatVec) :
    List (List FeatVec) :=
  (p :: (comps.filter (closeToCluster eps p)).flatten) ::
    comps.filter (fun c => !closeToCluster eps p c)

/-- The groups of mutually-reachable points (connected components of the
"within the neighborhood radius" relation). -/
def components (eps : Rat) (pts : List FeatVec) : List (List FeatVec) :=
  pts.foldl (addPoint eps) []

/-- Modelled from the spec: the backend Breakout Cluster Detector (`detect`,
§4.4) is not among the available sources.  It runs density-based clustering
over the candidate feature vectors with two exposed parameters — the
neighborhood radius `eps` and the minimum cluster size `minPts` — grouping
points that are close together and dropping every group that is not dense
enough (fewer than `minPts` members) as noise, so noise points never form a
degenerate small cluster.  Each returned cluster is its member list. -/
def detect (eps : Rat) (minPts : Nat) (pts : List FeatVec) :
    List (List FeatVec) :=
  (components eps pts).filter (fun c => decide (minPts ≤ c.length))

/-! C7: the categorizer. -/

/-- A taxonomy entry: one (category, sub_category) pair with its matchable
keywords/aliases (spec §2). -/
structure TaxEntry where
  category : String
  sub_category : String
  keywords : List String
deriving DecidableEq

/-- A successful categorization (spec §4.1): the matched pair with the raw
similarity score as confidence. -/
structure CategoryMatch where
  category : String
  sub_category : String
  confidence : Nat
deriving DecidableEq

/-- One step of text normalization at the character level: keep alphanumeric
characters lowercased, turn everything else into a separator. -/
def tokStep (c : Char) (acc : List (List Char)) : List (List Char) :=
  if c.isAlphanum then
    match acc with
    | [] => [[c.toLower]]
    | t :: ts => (c.toLower :: t) :: ts
  else [] :: acc

/-- Normalization of spec §4.1: lowercase, strip punctuation/decoration, split
on whitespace and separators; the tokens are the maximal alphanumeric runs. -/
def tokenize (cs : List Char) : List (List Char) :=
  (cs.foldr tokStep []).filter (fun t => !t.isEmpty)

/-- Similarity of one keyword against the token list: 100 when the lowercased
keyword occurs inside some token (partial matching, so "babydoge2.0" matches
the keyword "doge"), 0 otherwise. -/
def keywordScore (toks : List (List Char)) (kw : String) : Nat :=
  if toks.any (fun t => decide (List.IsInfix kw.toLower.toList t)) then 100 else 0

/-- Best similarity of a taxonomy entry over its keywords, together with the
length of the longest keyword achieving it (used by the tie-break). -/
def entryScore (toks : List (List Char)) (e : TaxEntry) : Nat × Nat :=
  e.keywords.foldl
    (fun best kw =>
      let s := keywordScore toks kw
      if best.1 < s then (s, kw.length)
      else if s = best.1 ∧ best.2 < kw.length then (s, kw.length)
      else best)
    (0, 0)

/-- Selection of spec §4.1: globally highest score; ties prefer the longer
matched keyword, then the lexicographically first category name. -/
def pickBest (scored : List (TaxEntry × Nat × Nat)) :
    Option (TaxEntry × Nat × Nat) :=
  scored.foldl
    (fun acc es =>
      match acc with
      | none => some es
      | some best =>
        if best.2.1 < es.2.1 then some es
        else if es.2.1 = best.2.1 ∧ best.2.2 < es.2.2 then some es
        else if es.2.1 = best.2.1 ∧ es.2.2 = best.2.2 ∧
            es.1.category < best.1.category then some es
        else some best)
    none

/-- The acceptance threshold of spec §4.1 (reject below ~70 on the 0-100
scale). -/
def threshold : Nat := 70

/-- Modelled from the spec: the backend Categorizer (`categorize`, §4.1) is not
among the available sources.  It normalizes the concatenated name / symbol /
description, immediately returns `none` on blank or empty input, scores every
taxonomy entry by fuzzy keyword similarity, picks the best entry with the
documented tie-breaks and rejects scores below the confidence threshold.  It
is a total function of its input, so no input can make it raise. -/
def categorize (taxonomy : List TaxEntry) (name symbol : String)
    (description : Option String) : Option CategoryMatch :=
  let text := name ++ " " ++ symbol ++ " " ++ description.getD ""
  let toks := tokenize text.toList
  if toks.isEmpty then none
  else
    match pickBest (taxonomy.map (fun e => (e, entryScore toks e))) with
    | none => none
    | some (e, s, _) =>
      if s < threshold then none else some ⟨e.category, e.sub_category, s⟩

/-! C8: display normalization of the acceleration score. -/

/-- AccelerationBar (`src/frontend/src/components/AccelerationBar.jsx` line 3):
`const normalizedScore = Math.min(100, Math.max(0, score))`. -/
def normalizedScore (s : Rat) : Rat := min 100 (max 0 s)

/-! C9: the breakout-coin highlight of TrendDetail. -/

/-- The market cap a coin contributes to the average (`coin.market_cap || 0`). -/
def coinMcap (c : Coin) : Rat := c.market_cap.getD 0

/-- TrendDetail (`src/frontend/src/components/TrendDetail.jsx` lines 187-201):
the average market cap over the coin list, counting a missing market cap as 0;
0 for the empty list. -/
def averageMarketCap (coins : List Coin) : Rat :=
  if coins.isEmpty then 0
  else (coins.map coinMcap).sum / (coins.length : Rat)

/-- The filter predicate `coin.market_cap > avg * 5`; a missing market cap
never qualifies (a JavaScript comparison against `undefined` is false). -/
def qualifies (avg : Rat) (c : Coin) : Bool :=
  match c.market_cap with
  | some mc => decide (avg * 5 < mc)
  | none => false

/-- The stable descending sort `(a, b) => b.market_cap - a.market_cap`
(every sorted coin qualifies, hence has a present market cap). -/
def sortCoinsDesc (coins : List Coin) : List Coin :=
  coins.mergeSort (leKey coinMcap)

/-- TrendDetail's breakoutCoin: `null` for the empty coin list, otherwise the
head of the qualifying coins sorted by descending market cap, or `null` when
none qualifies. -/
def breakoutCoin (coins : List Coin) : Option Coin :=
  if coins.isEmpty then none
  else (sortCoinsDesc (coins.filter (qualifies (averageMarketCap coins)))).head?

/-! C10: fetchTrendDetail on an unknown key. -/

/-- The list a fetchTrendDetail call searches: the response body on the API
path, the mock trends on the fallback path. -/
def detailSearchList (api : Except String (List Trend)) : List Trend :=
  match api with
  | .ok trends => trends
  | .error _ => mockTrends

/-- The match predicate a fetchTrendDetail call applies on the list it
searches. -/
def detailSearchPred (api : Except String (List Trend))
    (category subCategory : String) : Trend → Bool :=
  match api with
  | .ok _ => detailMatch category subCategory
  | .error _ => detailMatchMock category subCategory

/-! Theorems. -/

theorem leKey_iff {α : Type} (key : α → Rat) (a b : α) :
    leKey key a b = true ↔ key b ≤ key a := by
  simp [leKey, sub_nonpos]

theorem leKey_trans {α : Type} (key : α → Rat) :
    ∀ a b c, leKey key a b → leKey key b c → leKey key a c := by
  intro a b c hab hbc
  rw [leKey_iff] at hab hbc ⊢
  exact le_trans hbc hab

theorem leKey_total {α : Type} (key : α → Rat) :
    ∀ a b, leKey key a b || leKey key b a := by
  intro a b
  simp only [leKey, Bool.or_eq_true, decide_eq_true_eq, sub_nonpos]
  exact le_total (key b) (key a)

theorem trendCmp_eq_sub (s : SortBy) (a b : Trend) :
    trendCmp s a b = sortKey s b - sortKey s a := by
  cases s <;> simp [trendCmp, sortKey]

theorem sortTrends_eq_mergeSort (s : SortBy) (ts : List Trend) :
    sortTrends s ts = ts.mergeSort (leKey (sortKey s)) := by
  unfold sortTrends
  congr 1
  funext a b
  rw [leKey, trendCmp_eq_sub]

theorem sorted_sortTrends (s : SortBy) (ts : List Trend) :
    (sortTrends s ts).Pairwise (fun a b => sortKey s b ≤ sortKey s a) := by
  rw [sortTrends_eq_mergeSort]
  exact (List.sorted_mergeSort (leKey_trans (sortKey s)) (leKey_total (sortKey s))
    ts).imp (fun hab => (leKey_iff _ _ _).mp hab)

/-- C1: for every `sort_by` value, every collaborator outcome and every list the
trends query surface resolves with (the spec-modelled API path as well as the
mock fallback path), the list is ordered descending by the corresponding metric:
each element's sort key is ≥ that of every later element (so in particular of
the next one). -/
theorem fetchTrends_sorted_desc (s : SortBy) (backend : Except String (List Trend))
    (ts : List Trend) (h : fetchTrends s backend = .ok ts) :
    ts.Pairwise (fun a b => sortKey s b ≤ sortKey s a) := by
  cases backend with
  | ok rows =>
    simp only [fetchTrends, Except.ok.injEq] at h
    exact h ▸ sorted_sortTrends s rows
  | error e =>
    simp only [fetchTrends, Except.ok.injEq] at h
    exact h ▸ sorted_sortTrends s mockTrends

/-- Witness for C1 at a concrete input: the fallback path with
`sort_by = acceleration`. -/
theorem fetchTrends_sorted_desc_witness :
    (sortTrends SortBy.acceleration mockTrends).Pairwise
      (fun a b => sortKey SortBy.acceleration b ≤ sortKey SortBy.acceleration a) :=
  fetchTrends_sorted_desc SortBy.acceleration (Except.error "network down")
    (sortTrends SortBy.acceleration mockTrends) rfl

/-- C2: for every non-negative `limit` and every collaborator outcome,
useTopAccelerating returns exactly the first `min limit n` elements of the list
produced by `get_trends(time_window, 'acceleration')` (i.e. fetchTrends with
`sort_by = acceleration`), in the same order; in particular its length never
exceeds `limit` and each returned element appears in that list. -/
theorem useTopAccelerating_take (limit : Nat) (backend : Except String (List Trend))
    (ts : List Trend) (h : fetchTrends SortBy.acceleration backend = .ok ts) :
    useTopAccelerating limit backend = .ok (ts.take limit) ∧
    (ts.take limit).length = min limit ts.length ∧
    ∀ t ∈ ts.take limit, t ∈ ts := by
  refine ⟨?_, List.length_take limit ts, fun t ht => List.mem_of_mem_take ht⟩
  unfold useTopAccelerating
  rw [h]

/-- Witness for C2 at a concrete input: `limit = 5` on the fallback path. -/
theorem useTopAccelerating_take_witness :
    useTopAccelerating 5 (Except.error "network down") =
      .ok ((sortTrends SortBy.acceleration mockTrends).take 5) ∧
    ((sortTrends SortBy.acceleration mockTrends).take 5).length =
      min 5 (sortTrends SortBy.acceleration mockTrends).length ∧
    ∀ t ∈ (sortTrends SortBy.acceleration mockTrends).take 5,
      t ∈ sortTrends SortBy.acceleration mockTrends :=
  useTopAccelerating_take 5 (Except.error "network down")
    (sortTrends SortBy.acceleration mockTrends) rfl

/-- C3 counterexample: on the input `[tSmall, tBig]` — equal
`acceleration_score`, `tSmall` with the strictly smaller `total_market_cap`
first — the embedded sort of the trends query surface returns the input order,
so the entry with the larger `total_market_cap` is NOT placed first. -/
theorem sortTrends_no_tiebreak_counterexample :
    tSmall.acceleration_score = tBig.acceleration_score ∧
    tSmall.total_market_cap < tBig.total_market_cap ∧
    sortTrends SortBy.acceleration [tSmall, tBig] = [tSmall, tBig] := by
  refine ⟨by norm_num [tSmall, tBig], by norm_num [tSmall, tBig], ?_⟩
  exact List.mergeSort_of_sorted
    (List.pairwise_pair.mpr (by norm_num [trendCmp, tSmall, tBig]))

/-- C3 amended: whenever two entries of the input have equal
`acceleration_score`, the sort of the trends query surface keeps their relative
input order (the sort is stable and its comparator compares only
`acceleration_score`); no market-cap or category-name tie-break is applied, and
the result is still deterministic (a pure function of the input). -/
theorem sortTrends_stable_on_ties (l : List Trend) (a b : Trend)
    (hscore : a.acceleration_score = b.acceleration_score)
    (hsub : List.Sublist [a, b] l) :
    List.Sublist [a, b] (sortTrends SortBy.acceleration l) := by
  rw [sortTrends_eq_mergeSort]
  refine List.pair_sublist_mergeSort (leKey_trans _) (leKey_total _) ?_ hsub
  rw [leKey_iff]
  simp [sortKey, hscore]

/-- Witness for C3's amended theorem at a concrete input. -/
theorem sortTrends_stable_on_ties_witness :
    List.Sublist [tSmall, tBig] (sortTrends SortBy.acceleration [tSmall, tBig]) :=
  sortTrends_stable_on_ties [tSmall, tBig] tSmall tBig (by norm_num [tSmall, tBig])
    (List.Sublist.refl _)

/-- C4 counterexample: at the concrete collaborator error "network down",
fetchTrends does NOT propagate the error to its caller — it resolves
successfully with the sorted mock data, refuting the claim that a
collaborator-query-time error surfaces as an explicit error. -/
theorem fetchTrends_swallows_error_counterexample :
    fetchTrends SortBy.acceleration (Except.error "network down") =
      Except.ok (sortTrends SortBy.acceleration mockTrends) ∧
    (fetchTrends SortBy.acceleration (Except.error "network down")).isOk = true :=
  ⟨rfl, rfl⟩

/-- C4 amended: a collaborator-query-time error (the HTTP fetch rejecting, or a
non-ok response) never propagates to the caller of any query-surface function;
each function catches it and resolves with its mock/fallback value instead
(fetchTrends with the sorted mock trends, fetchAcceleration with the projected
mock trends, fetchCoins/fetchHistory with the filtered mock lists,
fetchBreakoutMetas with the mock metas, fetchTrendDetail with the result of
searching the mock trends, searchCoins with an empty result), while a failed
background aggregation run leaves previously-computed trend data servable. -/
theorem client_errors_swallowed (e : String) (s : SortBy) (cat sub q : String)
    (store : List TrendAggregate) :
    fetchTrends s (.error e) = .ok (sortTrends s mockTrends) ∧
    fetchAcceleration (.error e) = .ok (mockTrends.map trendToAccelEntry) ∧
    fetchCoins cat (.error e) = .ok (mockCoins.filter (fun c => c.category == cat)) ∧
    fetchHistory cat (.error e) =
      .ok (mockHistory.filter (fun h => h.category == cat)) ∧
    fetchBreakoutMetas (.error e) = .ok mockBreakoutMetas ∧
    fetchTrendDetail cat sub (.error e) =
      orNull (jsFind (detailMatchMock cat sub) mockTrends) ∧
    searchCoins q (.error e) = .ok ⟨q, [], [], []⟩ ∧
    runAggregation store (.error e) = store :=
  ⟨rfl, rfl, rfl, rfl, rfl, rfl, rfl, rfl⟩

/-- C5: for every history containing exactly 0 or 1 aggregate points, the
acceleration scoring operation returns the neutral baseline: score 0 and
direction "stable".  The operation is a total function of its input, so it can
never raise an error. -/
theorem score_neutral_baseline (history : List TrendAggregate)
    (h : history.length ≤ 1) :
    (score history).acceleration_score = 0 ∧
    (score history).trend_direction = "stable" := by
  match history, h with
  | [], _ => exact ⟨rfl, rfl⟩
  | [a], _ => simp [score]

/-- Witness for C5 at the two concrete inputs: the empty history and a
one-point history. -/
theorem score_neutral_baseline_witness :
    (score []).acceleration_score = 0 ∧
    (score []).trend_direction = "stable" ∧
    (score [⟨5, 1000, 0⟩]).acceleration_score = 0 ∧
    (score [⟨5, 1000, 0⟩]).trend_direction = "stable" := by
  obtain ⟨h1, h2⟩ := score_neutral_baseline [] (by simp)
  obtain ⟨h3, h4⟩ := score_neutral_baseline [⟨5, 1000, 0⟩] (by simp)
  exact ⟨h1, h2, h3, h4⟩

/-- Distance is symmetric. -/
theorem dist_comm (v w : FeatVec) : dist v w = dist w v := by
  unfold dist
  induction v generalizing w with
  | nil => cases w <;> simp
  | cons a v ih =>
    cases w with
    | nil => simp
    | cons b w => simp [List.zipWith, ih, abs_sub_comm]

/-- If every processed point is farther than `eps` from every other, the
incremental grouping only ever produces singleton groups. -/
theorem components_singletons (eps : Rat) :
    ∀ (l : List FeatVec) (comps : List (List FeatVec)),
      l.Pairwise (fun p q => eps < dist p q) →
      (∀ c ∈ comps, ∃ q, c = [q] ∧ ∀ p ∈ l, eps < dist p q) →
      ∀ c ∈ l.foldl (addPoint eps) comps, ∃ q, c = [q] := by
  intro l
  induction l with
  | nil =>
    intro comps _ hinv c hc
    obtain ⟨q, hq, -⟩ := hinv c hc
    exact ⟨q, hq⟩
  | cons p rest ih =>
    intro comps hpw hinv c hc
    have hfar : ∀ c' ∈ comps, closeToCluster eps p c' = false := by
      intro c' hc'
      obtain ⟨q, rfl, hq⟩ := hinv c' hc'
      simp only [closeToCluster, List.any_cons, List.any_nil, Bool.or_false,
        decide_eq_false_iff_not, not_le]
      exact hq p (List.mem_cons_self p rest)
    have hstep : addPoint eps comps p = [p] :: comps := by
      unfold addPoint
      have h1 : comps.filter (closeToCluster eps p) = [] := by
        rw [List.filter_eq_nil_iff]
        intro c' hc'
        simp [hfar c' hc']
      have h2 : comps.filter (fun c' => !closeToCluster eps p c') = comps := by
        rw [List.filter_eq_self]
        intro c' hc'
        simp [hfar c' hc']
      rw [h1, h2]
      rfl
    rw [List.foldl_cons, hstep] at hc
    refine ih ([p] :: comps) hpw.of_cons ?_ c hc
    intro c' hc'
    rcases List.mem_cons.mp hc' with rfl | hmem
    · refine ⟨p, rfl, ?_⟩
      intro p' hp'
      have := (List.pairwise_cons.mp hpw).1 p' hp'
      rw [dist_comm]
      exact this
    · obtain ⟨q, rfl, hq⟩ := hinv c' hmem
      exact ⟨q, rfl, fun p' hp' => hq p' (List.mem_cons_of_mem p hp')⟩

/-- C6: for every candidate set whose feature vectors are pairwise farther
apart than the neighborhood radius, and every minimum cluster size of at least
2, the breakout cluster detector returns the empty cluster list — no noise
point is emitted as a single-member cluster. -/
theorem detect_all_noise_empty (eps : Rat) (minPts : Nat) (pts : List FeatVec)
    (hmin : 2 ≤ minPts)
    (hfar : pts.Pairwise (fun p q => eps < dist p q)) :
    detect eps minPts pts = [] := by
  unfold detect
  rw [List.filter_eq_nil_iff]
  intro c hc
  obtain ⟨q, rfl⟩ := components_singletons eps pts [] hfar (by simp) c hc
  simp only [List.length_singleton, decide_eq_true_eq]
  omega

/-- Witness for C6 at a concrete input: two one-dimensional feature vectors at
distance 10 with radius 1 and minimum cluster size 2 yield no cluster. -/
theorem detect_all_noise_empty_witness :
    detect 1 2 [[0], [10]] = [] :=
  detect_all_noise_empty 1 2 [[0], [10]] (by norm_num)
    (by norm_num [List.pairwise_cons, dist])

/-- A whitespace character is never alphanumeric. -/
theorem whitespace_not_alphanum (c : Char) (h : c.isWhitespace = true) :
    c.isAlphanum = false := by
  simp only [Char.isWhitespace, Bool.or_eq_true, decide_eq_true_eq] at h
  rcases h with ((rfl | rfl) | rfl) | rfl <;> decide

/-- Folding the token builder over characters with no alphanumeric character
yields only empty tokens. -/
theorem foldr_tokStep_all_nil (cs : List Char) :
    (∀ c ∈ cs, c.isAlphanum = false) → ∀ t ∈ cs.foldr tokStep [], t = [] := by
  induction cs with
  | nil =>
    intro _ t ht
    simp at ht
  | cons c rest ih =>
    intro h t ht
    have hc := h c (List.mem_cons_self c rest)
    have hstep : tokStep c (rest.foldr tokStep []) = [] :: rest.foldr tokStep [] := by
      rw [tokStep.eq_def, hc]
      simp
    rw [List.foldr_cons, hstep] at ht
    rcases List.mem_cons.mp ht with rfl | hmem
    · rfl
    · exact ih (fun c' hc' => h c' (List.mem_cons_of_mem c hc')) t hmem

/-- Normalizing text with no alphanumeric character produces no token. -/
theorem tokenize_no_alphanum (cs : List Char)
    (h : ∀ c ∈ cs, c.isAlphanum = false) : tokenize cs = [] := by
  rw [tokenize, List.filter_eq_nil_iff]
  intro t ht
  rw [foldr_tokStep_all_nil cs h t ht]
  simp

/-- C7: for every taxonomy and every blank-or-empty name, symbol and
description, `categorize` returns `none` (uncategorized).  `categorize` is a
total function of arbitrary string inputs, so malformed text can never make it
raise. -/
theorem categorize_blank_none (taxonomy : List TaxEntry) (name symbol : String)
    (description : Option String)
    (hn : ∀ c ∈ name.toList, c.isWhitespace = true)
    (hs : ∀ c ∈ symbol.toList, c.isWhitespace = true)
    (hd : ∀ c ∈ (description.getD "").toList, c.isWhitespace = true) :
    categorize taxonomy name symbol description = none := by
  have hsp : (" " : String).data = [' '] := rfl
  have htoks :
      tokenize (name ++ " " ++ symbol ++ " " ++ description.getD "").toList = [] := by
    apply tokenize_no_alphanum
    intro c hc
    simp only [String.toList, String.data_append, hsp, List.mem_append,
      List.mem_singleton] at hc
    rcases hc with (((hc | rfl) | hc) | rfl) | hc
    · exact whitespace_not_alphanum c (hn c hc)
    · decide
    · exact whitespace_not_alphanum c (hs c hc)
    · decide
    · exact whitespace_not_alphanum c (hd c hc)
  rw [categorize]
  rw [htoks]
  simp

/-- Witness for C7 at a concrete input: a whitespace-only name with empty
symbol and no description is uncategorized under a concrete taxonomy. -/
theorem categorize_blank_none_witness :
    categorize [⟨"animals", "dogs", ["doge", "shiba"]⟩] "   " "" none = none :=
  categorize_blank_none [⟨"animals", "dogs", ["doge", "shiba"]⟩] "   " "" none
    (by decide) (by decide) (by decide)

/-- C8: the display normalization of the acceleration score equals
`min(100, max(0, score))` for every input score; hence it always lies in the
closed interval [0, 100], and it is monotone non-decreasing in the score. -/
theorem normalizedScore_clamped_monotone (s t : Rat) :
    normalizedScore s = min 100 (max 0 s) ∧
    0 ≤ normalizedScore s ∧
    normalizedScore s ≤ 100 ∧
    (s ≤ t → normalizedScore s ≤ normalizedScore t) := by
  refine ⟨rfl, ?_, min_le_left _ _, ?_⟩
  · exact le_min (by norm_num) (le_max_left 0 s)
  · intro hst
    exact min_le_min le_rfl (max_le_max le_rfl hst)

/-- Witness for C8 at concrete inputs 3 and 5. -/
theorem normalizedScore_clamped_monotone_witness :
    normalizedScore 3 = min 100 (max 0 3) ∧
    0 ≤ normalizedScore 3 ∧
    normalizedScore 3 ≤ 100 ∧
    normalizedScore 3 ≤ normalizedScore 5 := by
  obtain ⟨h1, h2, h3, h4⟩ := normalizedScore_clamped_monotone 3 5
  exact ⟨h1, h2, h3, h4 (by norm_num)⟩

/-- The `qualifies` test, unfolded to its propositional meaning. -/
theorem qualifies_iff (avg : Rat) (c : Coin) :
    qualifies avg c = true ↔ ∃ mc, c.market_cap = some mc ∧ avg * 5 < mc := by
  cases h : c.market_cap with
  | none => simp [qualifies, h]
  | some mc => simp [qualifies, h]

/-- The descending coin sort is sorted by `coinMcap`. -/
theorem sorted_sortCoinsDesc (coins : List Coin) :
    (sortCoinsDesc coins).Pairwise (fun a b => coinMcap b ≤ coinMcap a) :=
  (List.sorted_mergeSort (leKey_trans coinMcap) (leKey_total coinMcap)
    coins).imp (fun hab => (leKey_iff _ _ _).mp hab)

/-- The descending coin sort is a permutation of its input. -/
theorem perm_sortCoinsDesc (coins : List Coin) :
    (sortCoinsDesc coins).Perm coins :=
  List.mergeSort_perm coins _

/-- C9: for every coin list of a trend detail page, a breakout coin is
highlighted iff some coin's market cap is strictly greater than 5 times the
average market cap (missing market caps counted as 0 in the average), the
highlighted coin qualifies and has maximal market cap among the qualifying
coins, and for the empty list the average is 0 and no coin is highlighted. -/
theorem breakoutCoin_highlight (coins : List Coin) :
    (coins = [] → averageMarketCap coins = 0 ∧ breakoutCoin coins = none) ∧
    ((breakoutCoin coins).isSome ↔
      ∃ c ∈ coins, ∃ mc, c.market_cap = some mc ∧
        averageMarketCap coins * 5 < mc) ∧
    (∀ b, breakoutCoin coins = some b →
      b ∈ coins ∧
      (∃ mc, b.market_cap = some mc ∧ averageMarketCap coins * 5 < mc) ∧
      ∀ c ∈ coins, qualifies (averageMarketCap coins) c = true →
        coinMcap c ≤ coinMcap b) := by
  refine ⟨?_, ?_, ?_⟩
  · rintro rfl
    exact ⟨rfl, rfl⟩
  · cases hne : coins.isEmpty with
    | true =>
      rw [List.isEmpty_iff] at hne
      subst hne
      simp [breakoutCoin]
    | false =>
      have hbc : breakoutCoin coins =
          (sortCoinsDesc (coins.filter (qualifies (averageMarketCap coins)))).head? := by
        rw [breakoutCoin, hne]
        simp
      rw [hbc]
      rw [List.head?_isSome]
      constructor
      · intro hnil
        have : coins.filter (qualifies (averageMarketCap coins)) ≠ [] := by
          intro h0
          apply hnil
          rw [h0]
          simp [sortCoinsDesc, List.mergeSort_nil]
        obtain ⟨c, hc⟩ := List.exists_mem_of_ne_nil _ this
        rw [List.mem_filter] at hc
        exact ⟨c, hc.1, (qualifies_iff _ c).mp hc.2⟩
      · rintro ⟨c, hc, hq⟩
        intro h0
        have hmem : c ∈ coins.filter (qualifies (averageMarketCap coins)) :=
          List.mem_filter.mpr ⟨hc, (qualifies_iff _ c).mpr hq⟩
        have := (perm_sortCoinsDesc
          (coins.filter (qualifies (averageMarketCap coins)))).symm.mem_iff.mp hmem
        rw [h0] at this
        exact (List.not_mem_nil c) this
  · intro b hb
    have hne : coins.isEmpty = false := by
      cases hne : coins.isEmpty with
      | true =>
        rw [List.isEmpty_iff] at hne
        subst hne
        rw [breakoutCoin] at hb
        simp at hb
      | false => rfl
    have hbc : breakoutCoin coins =
        (sortCoinsDesc (coins.filter (qualifies (averageMarketCap coins)))).head? := by
      rw [breakoutCoin, hne]
      simp
    rw [hbc] at hb
    set sorted := sortCoinsDesc (coins.filter (qualifies (averageMarketCap coins)))
      with hsorted
    obtain ⟨tl, htl⟩ : ∃ tl, sorted = b :: tl := by
      cases hs : sorted with
      | nil => rw [hs] at hb; simp at hb
      | cons x tl =>
        rw [hs] at hb
        simp only [List.head?_cons, Option.some.injEq] at hb
        exact ⟨tl, by rw [hb]⟩
    have hbmem : b ∈ sorted := by
      rw [htl]
      exact List.mem_cons_self b tl
    have hbfilter : b ∈ coins.filter (qualifies (averageMarketCap coins)) :=
      (perm_sortCoinsDesc _).mem_iff.mp hbmem
    rw [List.mem_filter] at hbfilter
    refine ⟨hbfilter.1, (qualifies_iff _ b).mp hbfilter.2, ?_⟩
    intro c hc hqc
    have hcmem : c ∈ sorted :=
      (perm_sortCoinsDesc _).symm.mem_iff.mp (List.mem_filter.mpr ⟨hc, hqc⟩)
    have hsorted2 := sorted_sortCoinsDesc (coins.filter (qualifies (averageMarketCap coins)))
    rw [← hsorted, htl] at hsorted2
    rw [htl] at hcmem
    rcases List.mem_cons.mp hcmem with rfl | hmem
    · exact le_rfl
    · exact (List.pairwise_cons.mp hsorted2).1 c hmem

/-- Witness for C9 at the concrete empty coin list, discharging the
empty-list hypothesis. -/
theorem breakoutCoin_highlight_witness :
    averageMarketCap [] = 0 ∧ breakoutCoin [] = none ∧
    ((breakoutCoin []).isSome ↔
      ∃ c ∈ ([] : List Coin), ∃ mc, c.market_cap = some mc ∧
        averageMarketCap [] * 5 < mc) := by
  obtain ⟨h1, h2⟩ := (breakoutCoin_highlight []).1 rfl
  exact ⟨h1, h2, (breakoutCoin_highlight []).2.1⟩

/-- Normalizing `undefined` away never yields `undefined`. -/
theorem orNull_never_undefined (r : TrendDetailResult) : orNull r ≠ .jsUndefined := by
  cases r <;> simp [orNull]

/-- C10: fetchTrendDetail never resolves to `undefined`, and whenever no trend
of the searched list matches the requested (category, sub_category) key it
resolves to `null` — an expected empty result, not a fault (the model returns
a value on every path, so no error is thrown either). -/
theorem fetchTrendDetail_unknown_key_null (api : Except String (List Trend))
    (category subCategory : String) :
    fetchTrendDetail category subCategory api ≠ .jsUndefined ∧
    ((∀ t ∈ detailSearchList api,
        detailSearchPred api category subCategory t = false) →
      fetchTrendDetail category subCategory api = .null) := by
  constructor
  · cases api with
    | ok trends => exact orNull_never_undefined _
    | error e => exact orNull_never_undefined _
  · intro hnone
    have hfind : (detailSearchList api).find?
        (detailSearchPred api category subCategory) = none :=
      List.find?_eq_none.mpr (fun t ht => by simp [hnone t ht])
    cases api with
    | ok trends =>
      simp only [detailSearchList, detailSearchPred] at hfind
      simp [fetchTrendDetail, jsFind, hfind, orNull]
    | error e =>
      simp only [detailSearchList, detailSearchPred] at hfind
      simp [fetchTrendDetail, jsFind, hfind, orNull]

/-- Witness for C10 at a concrete input: an empty trends response and a key
matching nothing. -/
theorem fetchTrendDetail_unknown_key_null_witness :
    fetchTrendDetail "nocturnal" "none" (Except.ok []) ≠ .jsUndefined ∧
    fetchTrendDetail "nocturnal" "none" (Except.ok []) = .null := by
  obtain ⟨h1, h2⟩ := fetchTrendDetail_unknown_key_null (Except.ok []) "nocturnal" "none"
  exact ⟨h1, h2 (by simp [detailSearchList])⟩

end SolanaTrends
